import Mathlib

/-!
Verification development for the chrono-farmer repository.

The definitions below are a shallow embedding of the game's core systems:

* `PlantSystem` (src/js/systems/PlantSystem.js): plot/plant lifecycle,
  the growth formula `calculateGrowth`, the periodic tick `updatePlants`,
  `plantSeed`, `waterPlant`, `harvestPlant`, `accelerateGrowth`, and the
  harvest reward computation.
* `TimeTravelSystem` (src/js/systems/TimeTravelSystem.js): `travelTo`,
  `unlockEra`, `checkEraUnlocks`.
* `EventBus` (src/js/core/DOMRenderer.js): `on`, `once`, `emit`,
  `removeListener`.
* `StateManager` (src/unnamed/part_005): `pathMatches`, `notifyChange`,
  `deepClone`, `getState`, `setState`, path `get`.

JavaScript numbers are modelled as `ℚ` (all arithmetic in the modelled
code paths is exact on rationals), millisecond timestamps as `Int`
(acceleration can push `plantedAt` below zero), nullable fields as
`Option`, and the JS coercion `x || d` on nullable numbers (null and 0
are falsy) as `jsOr`.  Randomness (`Math.random`) is passed in as an
explicit parameter.  Event emission is modelled by returning the list of
emitted events.
-/

set_option maxRecDepth 4000

namespace ChronoFarmer

/-- Coercion used for `(x || d)` on a nullable JS number: `null` and `0`
are falsy, any other number is truthy. -/
def jsOr (x : Option Int) (d : Int) : Int :=
  match x with
  | none => d
  | some t => if t = 0 then d else t

/-- Coercion used for `x - y` where `y` may be `null`: JS coerces `null`
to `0` in arithmetic. -/
def jsNum (x : Option Int) : Int :=
  match x with
  | none => 0
  | some t => t

/-- Lookup with default, modelling `stateManager.get(path, default)` on a
leaf of an association table. -/
def lookupD (m : List (String × Int)) (k : String) (d : Int) : Int :=
  match m.lookup k with
  | some v => v
  | none => d

/-- Write a key, modelling `stateManager.set(path, v)` on a leaf of an
association table: replaces the first binding or appends a new one. -/
def setEntry : List (String × Int) → String → Int → List (String × Int)
  | [], k, v => [(k, v)]
  | (q, w) :: rest, k, v =>
      if q = k then (k, v) :: rest else (q, w) :: setEntry rest k v

/-! ## Plot and plant data model (src/js/systems/PlantSystem.js, src/unnamed/part_005) -/

/-- Plot lifecycle states; the schema in StateManager (src/unnamed/part_005
lines 117-123) lists `empty`, `planted`, `growing`, `ready`, `harvested`. -/
inductive PlotState where
  | empty
  | planted
  | growing
  | ready
  | harvested
  deriving DecidableEq, Repr

/-- Harvest yield template stored on a plant (from the plant catalog,
src/js/data/plants.js): `seeds` is a number, `resources` a table. -/
structure HarvestYield where
  seeds : Int
  resources : List (String × Int)
  deriving DecidableEq, Repr

/-- Plant object constructed by `plantSeed` (PlantSystem.js lines 159-167);
cosmetic fields (name, emoji, era) are omitted. -/
structure Plant where
  type : String
  growTime : ℚ
  maxStages : Nat
  harvestYield : HarvestYield
  deriving DecidableEq, Repr

/-- Static catalog entry, `window.plantData[seedType]`
(src/js/data/plants.js). -/
structure PlantData where
  growTime : ℚ
  stages : Nat
  harvestYield : HarvestYield
  deriving DecidableEq, Repr

/-- Plot record as initialised in StateManager (src/unnamed/part_005
lines 136-146) and mutated by PlantSystem. -/
structure Plot where
  id : Nat
  plant : Option Plant
  state : PlotState
  waterLevel : ℚ
  nutrients : ℚ
  plantedAt : Option Int
  lastWatered : Option Int
  growthStage : Int
  maxGrowthStage : Nat
  deriving DecidableEq, Repr

/-- Result record of `calculateGrowth` (PlantSystem.js lines 459-464). -/
structure GrowthResult where
  newStage : Int
  stageChanged : Bool
  isReady : Bool
  progress : ℚ
  deriving DecidableEq, Repr

/-- Growth computation, `PlantSystem.calculateGrowth` (PlantSystem.js
lines 444-465).  `mult` is `this.growthConfig.growthMultiplier`,
`baseGrowTime` is `plantData.growTime` from the catalog, `maxStages` is
`plant.maxStages`. -/
def calculateGrowth (mult : ℚ) (plot : Plot) (baseGrowTime : ℚ)
    (maxStages : Nat) (now : Int) : GrowthResult :=
  let timeSincePlanted : ℚ := ((now - jsNum plot.plantedAt : Int) : ℚ)
  let waterFactor := max (1/10) (plot.waterLevel / 100)
  let nutrientFactor := max (1/10) (plot.nutrients / 100)
  let environmentFactor := waterFactor * nutrientFactor
  let adjustedGrowTime := baseGrowTime / (environmentFactor * mult)
  let progress := min 1 (timeSincePlanted / adjustedGrowTime)
  let newStage := ⌊progress * (maxStages : ℚ)⌋
  { newStage := newStage
    stageChanged := newStage > plot.growthStage
    isReady := progress ≥ 1
    progress := progress }

/-- Events emitted on the event bus by the modelled operations; payloads
are reduced to the fields the claims talk about. -/
inductive GameEvent where
  | plantError (plotId : Nat) (msg : String)
  | planted (plotId : Nat)
  | watered (plotId : Nat)
  | growth (plotId : Nat) (newStage : Int)
  | ready (plotId : Nat)
  | harvested (plotId : Nat)
  | accelerated (plotId : Nat) (progress : ℚ)
  | notification (msg : String)
  | travelLocked (eraId : String)
  | travelInsufficient (required : Int) (current : Int)
  | travelStart (fromEra : String) (toEra : String)
  | travelSuccess (fromEra : String) (toEra : String)
  | travelError
  | eraUnlocked (eraId : String)
  deriving DecidableEq, Repr

/-- Game state slice touched by PlantSystem: the plot array
(`farm.plots`), the seed inventory (`player.inventory.seeds`) and the
resource inventory (`player.inventory.resources`). -/
structure GameState where
  plots : List Plot
  seeds : List (String × Int)
  resources : List (String × Int)
  deriving DecidableEq, Repr

/-- Lookup of a plot by id, `PlantSystem.getPlot` (PlantSystem.js lines
548-561): `plots.find(p => p.id === plotId)`. -/
def getPlot (plots : List Plot) (plotId : Nat) : Option Plot :=
  plots.find? (fun p => p.id = plotId)

/-- Update of the first plot with a matching id,
`PlantSystem.updatePlot` (PlantSystem.js lines 567-585): the plot at the
found index is replaced by a merge of the old plot and the updates, here
expressed as applying `f` to it. -/
def updatePlot (plots : List Plot) (plotId : Nat) (f : Plot → Plot) : List Plot :=
  match plots with
  | [] => []
  | p :: rest =>
      if p.id = plotId then f p :: rest else p :: updatePlot rest plotId f

/-- Growth configuration, `this.growthConfig` (PlantSystem.js lines
19-24). -/
structure GrowthConfig where
  waterDecayRate : ℚ
  nutrientDecayRate : ℚ
  growthMultiplier : ℚ
  deriving DecidableEq, Repr

/-- Feature flags, `this.config` (PlantSystem.js lines 31-36). -/
structure SysConfig where
  enableWatering : Bool
  enableNutrients : Bool
  deriving DecidableEq, Repr

/-- Plant catalog, `window.plantData` (src/js/data/plants.js) as consumed
through `getPlantData` (PlantSystem.js lines 591-594). -/
def Catalog : Type := String → Option PlantData

/-- Seed planting, `PlantSystem.plantSeed` (PlantSystem.js lines
132-218).  Returns the new state, the boolean result, and the emitted
domain events. -/
def plantSeed (catalog : Catalog) (s : GameState) (plotId : Nat)
    (seedType : String) (now : Int) : GameState × Bool × List GameEvent :=
  match getPlot s.plots plotId with
  | none => (s, false, [GameEvent.plantError plotId "Plot ocupado"])
  | some plot =>
      if plot.state ≠ PlotState.empty then
        (s, false, [GameEvent.plantError plotId "Plot ocupado"])
      else
        let seedCount := lookupD s.seeds seedType 0
        if seedCount ≤ 0 then
          (s, false, [GameEvent.plantError plotId "Sin semillas"])
        else
          match catalog seedType with
          | none => (s, false, [])
          | some pd =>
              let plant : Plant :=
                { type := seedType
                  growTime := pd.growTime
                  maxStages := pd.stages
                  harvestYield := pd.harvestYield }
              let plots := updatePlot s.plots plotId (fun p =>
                { p with
                    plant := some plant
                    state := PlotState.planted
                    plantedAt := some now
                    lastWatered := some now
                    growthStage := 0
                    maxGrowthStage := pd.stages
                    waterLevel := 100
                    nutrients := 80 })
              let seeds := setEntry s.seeds seedType (seedCount - 1)
              ({ s with plots := plots, seeds := seeds }, true,
                [GameEvent.planted plotId])

/-- Watering, `PlantSystem.waterPlant` (PlantSystem.js lines 224-268). -/
def waterPlant (s : GameState) (plotId : Nat) (now : Int) :
    GameState × Bool × List GameEvent :=
  match getPlot s.plots plotId with
  | none => (s, false, [])
  | some plot =>
      if plot.plant = none ∨ plot.state = PlotState.empty then
        (s, false, [])
      else
        let newWaterLevel := min 100 (plot.waterLevel + 30)
        let plots := updatePlot s.plots plotId (fun p =>
          { p with waterLevel := newWaterLevel, lastWatered := some now })
        ({ s with plots := plots }, true, [GameEvent.watered plotId])

/-- Harvest reward record; in the source `rewards.seeds` is a NUMBER
(`baseYield.seeds + seedBonus`, PlantSystem.js line 608) even though
`applyHarvestRewards` iterates it with `Object.entries`, so the model
keeps the dynamic type: a value that is either a number or a table. -/
inductive NumOrTable where
  | num (n : Int)
  | table (entries : List (String × Int))
  deriving DecidableEq, Repr

/-- Shallow embedding of `Object.entries` applied to a rewards field: a
primitive number has no own enumerable properties, so its entry list is
empty; a plain object yields its entries. -/
def jsEntries : NumOrTable → List (String × Int)
  | NumOrTable.num _ => []
  | NumOrTable.table es => es

/-- Shallow embedding of `x || \x7b\x7d` on a rewards field: the number 0 is
falsy and is replaced by the empty object; everything else is truthy. -/
def jsOrEmptyTable : NumOrTable → NumOrTable
  | NumOrTable.num 0 => NumOrTable.table []
  | x => x

/-- Rewards returned by `calculateHarvestRewards` (PlantSystem.js lines
607-614). -/
structure Rewards where
  seeds : NumOrTable
  resources : List (String × Int)
  deriving DecidableEq, Repr

/-- Harvest reward computation, `PlantSystem.calculateHarvestRewards`
(PlantSystem.js lines 600-615).  `seedBonus` models
`Math.floor(Math.random() * 2)` and `resourceBonus` models
`Math.random() * 0.5 + 0.75`. -/
def calculateHarvestRewards (plant : Plant) (seedBonus : Int)
    (resourceBonus : ℚ) : Rewards :=
  { seeds := NumOrTable.num (plant.harvestYield.seeds + seedBonus)
    resources := plant.harvestYield.resources.map
      (fun rv => (rv.1, ⌊(rv.2 : ℚ) * resourceBonus⌋)) }

/-- One iteration of the seed-reward loop in `applyHarvestRewards`:
read-add-write of one seed counter. -/
def addSeedEntry (st : GameState) (kv : String × Int) : GameState :=
  { st with seeds := setEntry st.seeds kv.1 (lookupD st.seeds kv.1 0 + kv.2) }

/-- One iteration of the resource-reward loop in `applyHarvestRewards`:
read-add-write of one resource counter. -/
def addResourceEntry (st : GameState) (kv : String × Int) : GameState :=
  { st with resources :=
      setEntry st.resources kv.1 (lookupD st.resources kv.1 0 + kv.2) }

/-- Reward application, `PlantSystem.applyHarvestRewards`
(PlantSystem.js lines 621-635): a loop over
`Object.entries(rewards.seeds || \x7b\x7d)` into the seed inventory, then a
loop over `Object.entries(rewards.resources || \x7b\x7d)` into the resource
inventory. -/
def applyHarvestRewards (s : GameState) (rw : Rewards) : GameState :=
  let s1 := (jsEntries (jsOrEmptyTable rw.seeds)).foldl addSeedEntry s
  rw.resources.foldl addResourceEntry s1

/-- Harvesting, `PlantSystem.harvestPlant` (PlantSystem.js lines
274-336). -/
def harvestPlant (s : GameState) (plotId : Nat) (seedBonus : Int)
    (resourceBonus : ℚ) : GameState × Bool × List GameEvent :=
  match getPlot s.plots plotId with
  | none => (s, false, [GameEvent.plantError plotId "Planta no lista"])
  | some plot =>
      match plot.plant with
      | none => (s, false, [GameEvent.plantError plotId "Planta no lista"])
      | some plant =>
          if plot.state ≠ PlotState.ready then
            (s, false, [GameEvent.plantError plotId "Planta no lista"])
          else
            let rewards := calculateHarvestRewards plant seedBonus resourceBonus
            let s1 := applyHarvestRewards s rewards
            let plots := updatePlot s1.plots plotId (fun p =>
              { p with
                  plant := none
                  state := PlotState.empty
                  plantedAt := none
                  lastWatered := none
                  growthStage := 0
                  maxGrowthStage := 0
                  waterLevel := 50
                  nutrients := 50 })
            ({ s1 with plots := plots }, true,
              [GameEvent.harvested plotId,
               GameEvent.notification "Cosechaste"])

/-- Growth acceleration, `PlantSystem.accelerateGrowth` (PlantSystem.js
lines 472-525).  Returns the new state, the returned progress (`null`
when aborted), and the emitted events.  Note the emitted progress is a
PERCENTAGE computed from the catalog `growTime` alone. -/
def accelerateGrowth (catalog : Catalog) (s : GameState) (plotId : Nat)
    (duration : Int) (now : Int) : GameState × Option ℚ × List GameEvent :=
  match getPlot s.plots plotId with
  | none => (s, none, [])
  | some plot =>
      match plot.plant with
      | none => (s, none, [])
      | some plant =>
          match catalog plant.type with
          | none => (s, none, [])
          | some pd =>
              let newPlantedAt := jsOr plot.plantedAt now - duration
              let plots := updatePlot s.plots plotId (fun p =>
                { p with plantedAt := some newPlantedAt })
              let elapsed := now - newPlantedAt
              let progress := min 100 ((elapsed : ℚ) / pd.growTime * 100)
              ({ s with plots := plots }, some progress,
                [GameEvent.accelerated plotId progress])

/-- One plot of the periodic tick, the body of the loop in
`PlantSystem.updatePlants` (PlantSystem.js lines 356-438).  The loop
runs over `activePlants`, which holds exactly the plots carrying a
plant; a plot without a plant is untouched.  Water/nutrient decay is
written into `updates` while `calculateGrowth` still reads the
not-yet-merged plot fields, so growth is computed from the pre-decay
levels, exactly as in the source.  An unknown catalog type aborts the
tick (the JS would fault reading `plantData.growTime`); the plot is then
left unchanged. -/
def updatePlantsStep (cfg : GrowthConfig) (flags : SysConfig)
    (catalog : Catalog) (now : Int) (plot : Plot) : Plot × List GameEvent :=
  match plot.plant with
  | none => (plot, [])
  | some plant =>
      let waterPair :=
        if flags.enableWatering ∧ plot.waterLevel > 0 then
          let timeSinceWatered : ℚ := ((now - jsOr plot.lastWatered now : Int) : ℚ)
          let waterDecay := timeSinceWatered / 1000 * cfg.waterDecayRate
          let newWaterLevel := max 0 (plot.waterLevel - waterDecay)
          if |newWaterLevel - plot.waterLevel| > 1/10 then
            (newWaterLevel, true)
          else (plot.waterLevel, false)
        else (plot.waterLevel, false)
      let nutrientPair :=
        if flags.enableNutrients ∧ plot.nutrients > 0 then
          let timeSincePlanted : ℚ := ((now - jsOr plot.plantedAt now : Int) : ℚ)
          let nutrientDecay := timeSincePlanted / 1000 * cfg.nutrientDecayRate
          let newNutrients := max 0 (plot.nutrients - nutrientDecay)
          if |newNutrients - plot.nutrients| > 1/10 then
            (newNutrients, true)
          else (plot.nutrients, false)
        else (plot.nutrients, false)
      if plot.state = PlotState.planted ∨ plot.state = PlotState.growing then
        match catalog plant.type with
        | none => (plot, [])
        | some pd =>
            let g := calculateGrowth cfg.growthMultiplier plot pd.growTime
              plant.maxStages now
            let stage := if g.stageChanged then g.newStage else plot.growthStage
            let stageEvents :=
              if g.stageChanged then [GameEvent.growth plot.id g.newStage] else []
            let becomesReady := g.isReady ∧ plot.state ≠ PlotState.ready
            let readyEvents :=
              if becomesReady then [GameEvent.ready plot.id] else []
            ({ plot with
                waterLevel := waterPair.1
                nutrients := nutrientPair.1
                growthStage := stage
                state := if becomesReady then PlotState.ready else plot.state },
             stageEvents ++ readyEvents)
      else
        ({ plot with waterLevel := waterPair.1, nutrients := nutrientPair.1 }, [])

/-- Full periodic tick, `PlantSystem.updatePlants` (PlantSystem.js lines
356-438): every plot carrying a plant is stepped; each step touches only
its own plot, so the tick is the pointwise map of `updatePlantsStep`. -/
def updatePlants (cfg : GrowthConfig) (flags : SysConfig) (catalog : Catalog)
    (now : Int) (plots : List Plot) : List Plot × List GameEvent :=
  let stepped := plots.map (updatePlantsStep cfg flags catalog now)
  (stepped.map Prod.fst, stepped.foldr (fun r acc => r.2 ++ acc) [])

/-- Parameters of one tick invocation: the (possibly era-adjusted)
growth configuration, the feature flags, and the wall-clock time. -/
structure TickParams where
  cfg : GrowthConfig
  flags : SysConfig
  now : Int
  deriving DecidableEq

/-- Fold of the per-plot tick over a sequence of tick invocations. -/
def tickPlotMany (catalog : Catalog) (ticks : List TickParams) (plot : Plot) : Plot :=
  ticks.foldl
    (fun p t => (updatePlantsStep t.cfg t.flags catalog t.now p).1) plot

/-! ## Era and travel state machine (src/js/systems/TimeTravelSystem.js) -/

/-- Unlock requirement variants, the `unlockRequirement.type` switch in
`checkEraUnlocks` (TimeTravelSystem.js lines 391-412). -/
inductive UnlockReq where
  | harvest (plantType : String) (count : Int)
  | minigame (name : String)
  | resource (resource : String) (amount : Int)
  deriving DecidableEq, Repr

/-- Era record (TimeTravelSystem.js lines 80-163); cosmetic fields are
omitted, `effects.growthMultiplier` is kept. -/
structure Era where
  id : String
  unlocked : Bool
  unlockRequirement : Option UnlockReq
  growthMultiplier : ℚ
  deriving DecidableEq, Repr

/-- Travel configuration, `this.travelConfig` and `this.config`
(TimeTravelSystem.js lines 27-42). -/
structure TravelConfig where
  minTravelInterval : ℚ
  temporalPulseCost : Int
  enableCooldown : Bool
  enableCost : Bool
  deriving DecidableEq, Repr

/-- State of the TimeTravelSystem together with the store slices it
touches: `time.currentEra`, `player.inventory.resources`,
`player.unlockedEras`, `player.harvestStats`, and the PlantSystem growth
multiplier set by `applyEraEffects`. -/
structure TravelState where
  currentEra : String
  previousEra : Option String
  isTraveling : Bool
  travelCooldown : ℚ
  eras : List Era
  resources : List (String × Int)
  unlockedEras : List String
  harvestStats : List (String × Int)
  plantGrowthMultiplier : ℚ
  deriving DecidableEq, Repr

/-- Era lookup, `this.eras.get(eraId)`. -/
def getEra (eras : List Era) (eraId : String) : Option Era :=
  eras.find? (fun e => e.id = eraId)

/-- Update of the era with the given id in place. -/
def setEra (eras : List Era) (eraId : String) (f : Era → Era) : List Era :=
  match eras with
  | [] => []
  | e :: rest =>
      if e.id = eraId then f e :: rest else e :: setEra rest eraId f

/-- Era travel, `TimeTravelSystem.travelTo` (TimeTravelSystem.js lines
195-298).  `effectsThrow` models an exception raised inside
`playTravelEffects` (the renderer/DOM effect sequence, lines 304-331);
the `catch` emits a `timetravel:error` event and returns false, the
`finally` clears `isTraveling`.  Note the pulse cost is deducted BEFORE
the effect sequence runs. -/
def travelTo (tc : TravelConfig) (ts : TravelState) (eraId : String)
    (effectsThrow : Bool) : TravelState × Bool × List GameEvent :=
  if ts.isTraveling then (ts, false, [])
  else if ts.currentEra = eraId then (ts, false, [])
  else
    match getEra ts.eras eraId with
    | none => (ts, false, [])
    | some targetEra =>
        if ¬ targetEra.unlocked then
          (ts, false, [GameEvent.travelLocked eraId])
        else if tc.enableCooldown ∧ ts.travelCooldown > 0 then
          (ts, false, [])
        else
          let currentPulses := lookupD ts.resources "temporal-pulses" 0
          if tc.enableCost ∧ currentPulses < tc.temporalPulseCost then
            (ts, false,
              [GameEvent.travelInsufficient tc.temporalPulseCost currentPulses])
          else
            -- try block, with isTraveling set and cleared by finally
            let resources :=
              if tc.enableCost then
                setEntry ts.resources "temporal-pulses"
                  (currentPulses - tc.temporalPulseCost)
              else ts.resources
            let startEvents := [GameEvent.travelStart ts.currentEra eraId]
            if effectsThrow then
              ({ ts with resources := resources, isTraveling := false },
               false, startEvents ++ [GameEvent.travelError])
            else
              ({ ts with
                  resources := resources
                  previousEra := some ts.currentEra
                  currentEra := eraId
                  plantGrowthMultiplier := targetEra.growthMultiplier
                  travelCooldown := tc.minTravelInterval
                  isTraveling := false },
               true,
               startEvents ++ [GameEvent.travelSuccess ts.currentEra eraId])

/-- Era unlock, `TimeTravelSystem.unlockEra` (TimeTravelSystem.js lines
424-452): a missing or already-unlocked era is a no-op; otherwise the
flag is set, the id is appended to `player.unlockedEras` when absent,
and the unlock events are emitted. -/
def unlockEra (ts : TravelState) (eraId : String) :
    TravelState × List GameEvent :=
  match getEra ts.eras eraId with
  | none => (ts, [])
  | some era =>
      if era.unlocked then (ts, [])
      else
        let eras := setEra ts.eras eraId (fun e => { e with unlocked := true })
        let unlockedEras :=
          if eraId ∈ ts.unlockedEras then ts.unlockedEras
          else ts.unlockedEras ++ [eraId]
        ({ ts with eras := eras, unlockedEras := unlockedEras },
         [GameEvent.eraUnlocked eraId,
          GameEvent.notification "Era desbloqueada"])

/-- Harvest count lookup, `TimeTravelSystem.getHarvestCount`
(TimeTravelSystem.js lines 500-504). -/
def getHarvestCount (ts : TravelState) (plantType : String) : Int :=
  lookupD ts.harvestStats plantType 0

/-- Unlock predicate of one era against the harvest event data, the
`switch` in `checkEraUnlocks` (TimeTravelSystem.js lines 391-412). -/
def shouldUnlockEra (ts : TravelState) (harvestedType : String)
    (req : UnlockReq) : Bool :=
  match req with
  | UnlockReq.harvest plantType count =>
      harvestedType = plantType ∧ getHarvestCount ts plantType ≥ count
  | UnlockReq.minigame _ => false
  | UnlockReq.resource resource amount =>
      lookupD ts.resources resource 0 ≥ amount

/-- Loop body of `TimeTravelSystem.checkEraUnlocks` (TimeTravelSystem.js
lines 385-417) for one era id: skip when the era is missing, unlocked or
requirement-free, otherwise evaluate the predicate and unlock. -/
def checkEraStep (harvestedType : String) (ts : TravelState) (eraId : String) :
    TravelState × List GameEvent :=
  match getEra ts.eras eraId with
  | none => (ts, [])
  | some era =>
      match era.unlockRequirement with
      | none => (ts, [])
      | some req =>
          if era.unlocked then (ts, [])
          else if shouldUnlockEra ts harvestedType req then
            unlockEra ts eraId
          else (ts, [])

/-- Unlock sweep, `TimeTravelSystem.checkEraUnlocks` (TimeTravelSystem.js
lines 384-418): iterates the era ids, skips unlocked or requirement-free
eras, and unlocks those whose predicate holds.  The iteration reads the
live era map, so each step looks the era up in the accumulated state. -/
def checkEraUnlocksAux (harvestedType : String) :
    List String → TravelState → TravelState × List GameEvent
  | [], ts => (ts, [])
  | eraId :: rest, ts =>
      let step := checkEraStep harvestedType ts eraId
      let restResult := checkEraUnlocksAux harvestedType rest step.1
      (restResult.1, step.2 ++ restResult.2)

/-- Unlock sweep entry point: `checkEraUnlocks` runs over all eras in
order, with `harvestData.plant.type` as the harvested plant type. -/
def checkEraUnlocks (ts : TravelState) (harvestedType : String) :
    TravelState × List GameEvent :=
  checkEraUnlocksAux harvestedType (ts.eras.map Era.id) ts

/-! ## Event bus (src/js/core/DOMRenderer.js, class EventBus) -/

/-- Listener record built by `EventBus.on` (DOMRenderer.js lines
869-877).  The callback itself is abstracted away; `emit` reports the
ids of the listeners it invoked.  NOTE: the source hardcodes
`once: false` in this record (line 873) and never reads `options.once`. -/
structure Listener where
  id : Nat
  once : Bool
  priority : Int
  deriving DecidableEq, Repr

/-- Options accepted by `on`/`once` (priority and the `once` flag; the
context, error handler and metadata fields are irrelevant here). -/
structure ListenerOptions where
  once : Bool
  priority : Int
  deriving DecidableEq, Repr

/-- Event bus state: listener lists per topic and the id counter. -/
structure EventBus where
  events : List (String × List Listener)
  listenerIdCounter : Nat
  deriving DecidableEq, Repr

/-- Listener list of a topic (`this.events.get(event)`), empty when the
topic is absent. -/
def busListeners (bus : EventBus) (event : String) : List Listener :=
  match bus.events.lookup event with
  | some ls => ls
  | none => []

/-- Replacement of the listener list of a topic (`this.events.set`);
`removeListener` deletes the topic when the list becomes empty
(DOMRenderer.js lines 995-997). -/
def busSetListeners (bus : EventBus) (event : String)
    (ls : List Listener) : EventBus :=
  let pruned := bus.events.filter (fun kv => kv.1 ≠ event)
  if ls.isEmpty then { bus with events := pruned }
  else { bus with events := pruned ++ [(event, ls)] }

/-- Insertion of a listener into a priority-descending list, after any
listener of equal priority (the stable position). -/
def insertByPriority (l : Listener) : List Listener → List Listener
  | [] => [l]
  | x :: xs =>
      if x.priority < l.priority then l :: x :: xs
      else x :: insertByPriority l xs

/-- Stable sort by descending priority, modelling
`listeners.sort((a, b) => b.priority - a.priority)` (DOMRenderer.js line
882; `Array.prototype.sort` is stable): a left fold of stable
insertions. -/
def sortByPriority (ls : List Listener) : List Listener :=
  ls.foldl (fun acc l => insertByPriority l acc) []

/-- Subscription, `EventBus.on` (DOMRenderer.js lines 853-896): a fresh
id is drawn, the listener record is built with `once: false` HARDCODED
(line 873, ignoring `options.once`), appended, and the list is sorted by
descending priority. -/
def busOn (bus : EventBus) (event : String) (options : ListenerOptions) :
    EventBus × Nat :=
  let listenerId := bus.listenerIdCounter
  let listener : Listener :=
    { id := listenerId
      once := false
      priority := options.priority }
  let ls := sortByPriority (busListeners bus event ++ [listener])
  let bus := busSetListeners bus event ls
  ({ bus with listenerIdCounter := listenerId + 1 }, listenerId)

/-- One-shot subscription, `EventBus.once` (DOMRenderer.js lines
905-908): delegates to `on` with `once: true` merged into the options. -/
def busOnce (bus : EventBus) (event : String) (options : ListenerOptions) :
    EventBus × Nat :=
  busOn bus event { options with once := true }

/-- Removal, `EventBus.removeListener` (DOMRenderer.js lines 982-1006). -/
def busRemoveListener (bus : EventBus) (event : String) (listenerId : Nat) :
    EventBus :=
  let ls := busListeners bus event
  if ls.all (fun l => l.id ≠ listenerId) then bus
  else busSetListeners bus event (ls.filter (fun l => l.id ≠ listenerId))

/-- Emission, `EventBus.emit` (DOMRenderer.js lines 799-844): the
listener list is copied, then each listener of the copy is removed first
when its `once` flag is set and then invoked.  The result records the
invoked listener ids in order. -/
def busEmit (bus : EventBus) (event : String) : EventBus × List Nat :=
  let listenersCopy := busListeners bus event
  listenersCopy.foldl
    (fun acc l =>
      let bus1 := if l.once then busRemoveListener acc.1 event l.id else acc.1
      (bus1, acc.2 ++ [l.id]))
    (bus, [])

/-! ## Observable state store (src/unnamed/part_005, class StateManager) -/

/-- Token of the compiled subscription pattern: `*` becomes the regex
fragment `([^.]*)` (a run of non-dot characters), `?` becomes `([^])`
(any single character), and every other pattern character is inserted
verbatim into the regex — so a literal `.` in the pattern is the regex
any-character. -/
inductive PatTok where
  | lit (c : Char)
  | anyChar
  | seg
  deriving DecidableEq, Repr

/-- Compilation of one pattern character, from
`StateManager.pathMatches` (src/unnamed/part_005 lines 421-426). -/
def compileTok (c : Char) : PatTok :=
  if c = Char.ofNat 42 then PatTok.seg
  else if c = Char.ofNat 63 then PatTok.anyChar
  else if c = Char.ofNat 46 then PatTok.anyChar
  else PatTok.lit c

/-- Suffixes of a character list reachable by consuming a (possibly
empty) run of non-dot characters — the match candidates of the regex
fragment `([^.]*)`. -/
def segSuffixes : List Char → List (List Char)
  | [] => [[]]
  | c :: cs =>
      (c :: cs) :: (if c = Char.ofNat 46 then [] else segSuffixes cs)

/-- Anchored regex matching of the compiled pattern against the path,
the `new RegExp` test in `pathMatches` (backtracking over the possible
lengths of each `([^.]*)` run). -/
def matchToks : List PatTok → List Char → Bool
  | [], ds => ds.isEmpty
  | PatTok.lit c :: ts, ds =>
      match ds with
      | [] => false
      | d :: rest => d == c && matchToks ts rest
  | PatTok.anyChar :: ts, ds =>
      match ds with
      | [] => false
      | _ :: rest => matchToks ts rest
  | PatTok.seg :: ts, ds =>
      (segSuffixes ds).any (fun rest => matchToks ts rest)

/-- Wildcard path matching, `StateManager.pathMatches`
(src/unnamed/part_005 lines 421-426): the pattern is compiled to an
anchored regex and tested against the concrete path. -/
def pathMatches (path pattern : String) : Bool :=
  matchToks (pattern.data.map compileTok) path.data

/-- Whether a `set` on `path` notifies a subscriber registered under
`listenerPath`, from `StateManager.notifyChange` (src/unnamed/part_005
lines 361-374): exact-path listeners fire, and wildcard listeners fire
when `listenerPath` contains `*` and `pathMatches(path, listenerPath)`. -/
def notifyTriggers (listenerPath path : String) : Bool :=
  listenerPath = path ∨
    (listenerPath.data.contains (Char.ofNat 42) ∧ pathMatches path listenerPath)

/-- JSON-serializable store values: the persisted root aggregate
contains only plain data (spec section 6); `deepClone` on such values
never meets the `Date` branch. -/
inductive JValue where
  | null
  | bool (b : Bool)
  | num (q : ℚ)
  | str (s : String)
  | arr (items : List JValue)
  | obj (fields : List (String × JValue))

mutual

/-- Deep clone, `StateManager.deepClone` (src/unnamed/part_005 lines
504-517): primitives are returned as-is, arrays are mapped, objects are
rebuilt from their own enumerable properties. -/
def deepClone : JValue → JValue
  | JValue.null => JValue.null
  | JValue.bool b => JValue.bool b
  | JValue.num q => JValue.num q
  | JValue.str s => JValue.str s
  | JValue.arr items => JValue.arr (deepCloneList items)
  | JValue.obj fields => JValue.obj (deepCloneFields fields)

/-- Clone of an array, `obj.map(item => this.deepClone(item))`. -/
def deepCloneList : List JValue → List JValue
  | [] => []
  | v :: rest => deepClone v :: deepCloneList rest

/-- Clone of an object, the `for key in obj` copy loop. -/
def deepCloneFields : List (String × JValue) → List (String × JValue)
  | [] => []
  | kv :: rest => (kv.1, deepClone kv.2) :: deepCloneFields rest

end

/-- Snapshot read, `StateManager.getState` (src/unnamed/part_005 lines
531-533): a deep clone of the root state. -/
def getStateFn (state : JValue) : JValue :=
  deepClone state

/-- Snapshot restore, `StateManager.setState` (src/unnamed/part_005
lines 540-557): the root state is replaced by a deep clone of the
argument. -/
def setStateFn (newState : JValue) : JValue :=
  deepClone newState

/-- One step of the path traversal of `StateManager.get`
(src/unnamed/part_005 lines 165-183): `current[key]` on an object is
property lookup, on an array it is numeric indexing, and on anything
else the traversal yields undefined (`none`), which `get` turns into the
caller default. -/
def jsIndex (v : JValue) (key : String) : Option JValue :=
  match v with
  | JValue.obj fields => fields.lookup key
  | JValue.arr items =>
      match key.toNat? with
      | some i => items.get? i
      | none => none
  | _ => none

/-- Path read, `StateManager.get` without the default substitution:
`none` is the case where `get` returns the caller default. -/
def stateGet (v : JValue) : List String → Option JValue
  | [] => some v
  | key :: rest =>
      match jsIndex v key with
      | some v1 => stateGet v1 rest
      | none => none

/-! ## Concrete instances used in the example scenarios -/

/-- Harvest yield of `prehistoric-moss` (src/js/data/plants.js lines
26-33, the `experience` field is not consumed by the modelled code). -/
def yieldMoss : HarvestYield :=
  { seeds := 1, resources := [("temporal-pulses", 5), ("fossils", 2)] }

/-- Catalog entry of `prehistoric-moss` (src/js/data/plants.js lines
8-49): `growTime` 30000 ms, 3 stages. -/
def pdMoss : PlantData :=
  { growTime := 30000, stages := 3, harvestYield := yieldMoss }

/-- Plant record for a planted `prehistoric-moss`, as built by
`plantSeed` from `pdMoss`. -/
def plantMoss : Plant :=
  { type := "prehistoric-moss", growTime := 30000, maxStages := 3,
    harvestYield := yieldMoss }

/-- One-entry catalog holding `prehistoric-moss`. -/
def catalogMoss : Catalog :=
  fun t => if t = "prehistoric-moss" then some pdMoss else none

/-- Plot of spec scenario 1: freshly planted, `waterLevel=100`,
`nutrients=80`, `growTime=30000`, `maxStages=3`, planted at time 0. -/
def plotScenario1 : Plot :=
  { id := 0, plant := some plantMoss, state := PlotState.planted,
    waterLevel := 100, nutrients := 80, plantedAt := some 0,
    lastWatered := some 0, growthStage := 0, maxGrowthStage := 3 }

/-- Plot used against the acceleration claim: a moss plant with
`waterLevel=50` and `nutrients=80`, planted at time 1000. -/
def plotAccel : Plot :=
  { id := 0, plant := some plantMoss, state := PlotState.planted,
    waterLevel := 50, nutrients := 80, plantedAt := some 1000,
    lastWatered := some 1000, growthStage := 0, maxGrowthStage := 3 }

/-- Game state holding just `plotAccel`. -/
def sAccel : GameState :=
  { plots := [plotAccel], seeds := [], resources := [] }

/-- A ready moss plot, used by the harvest witnesses. -/
def plotReady : Plot :=
  { id := 0, plant := some plantMoss, state := PlotState.ready,
    waterLevel := 40, nutrients := 30, plantedAt := some 0,
    lastWatered := some 0, growthStage := 3, maxGrowthStage := 3 }

/-- Game state holding a ready plot, an empty plot, and a small
inventory. -/
def sReady : GameState :=
  { plots := [plotReady,
      { id := 1, plant := none, state := PlotState.empty, waterLevel := 50,
        nutrients := 50, plantedAt := none, lastWatered := none,
        growthStage := 0, maxGrowthStage := 0 }],
    seeds := [("prehistoric-moss", 5)],
    resources := [("temporal-pulses", 100)] }

/-- The prehistoric era, unlocked from the start (TimeTravelSystem.js
lines 80-103). -/
def eraPrehistoric : Era :=
  { id := "prehistoric", unlocked := true, unlockRequirement := none,
    growthMultiplier := 8/10 }

/-- The egyptian era with its harvest-count requirement
(TimeTravelSystem.js lines 105-133), here in an already-unlocked state. -/
def eraEgyptUnlocked : Era :=
  { id := "egyptian", unlocked := true,
    unlockRequirement := some (UnlockReq.harvest "prehistoric-moss" 10),
    growthMultiplier := 1 }

/-- Default travel configuration (TimeTravelSystem.js lines 27-42):
5000 ms cooldown interval, cost 10 temporal pulses, cooldown and cost
enabled. -/
def tcDefault : TravelConfig :=
  { minTravelInterval := 5000, temporalPulseCost := 10,
    enableCooldown := true, enableCost := true }

/-- Travel state with both eras unlocked, 100 temporal pulses, no
cooldown, not traveling. -/
def tsBoth : TravelState :=
  { currentEra := "prehistoric", previousEra := none, isTraveling := false,
    travelCooldown := 0, eras := [eraPrehistoric, eraEgyptUnlocked],
    resources := [("temporal-pulses", 100)],
    unlockedEras := ["prehistoric", "egyptian"], harvestStats := [],
    plantGrowthMultiplier := 8/10 }

/-- Event bus holding one listener on topic `t` registered through
`once`. -/
def busWithOnce : EventBus :=
  (busOnce { events := [], listenerIdCounter := 0 } "t"
    { once := false, priority := 0 }).1

/-- Plot occupancy invariant from the spec: a plot carries a plant
exactly when its state is `planted`, `growing` or `ready`. -/
def occupancyInv (p : Plot) : Prop :=
  p.plant ≠ none ↔
    (p.state = PlotState.planted ∨ p.state = PlotState.growing ∨
      p.state = PlotState.ready)

instance : DecidablePred occupancyInv := fun p => by
  unfold occupancyInv; infer_instance

/-- Default growth configuration (PlantSystem.js lines 19-24). -/
def cfgDefault : GrowthConfig :=
  { waterDecayRate := 1/2, nutrientDecayRate := 3/10, growthMultiplier := 1 }

/-- Default feature flags (PlantSystem.js lines 31-36). -/
def flagsDefault : SysConfig :=
  { enableWatering := true, enableNutrients := true }

/-! ## Theorems -/

/-- C2 (counterexample): with `waterLevel=100`, `nutrients=80`,
`growTime=30000`, `maxStages=3` and era multiplier 1.0, evaluating
`calculateGrowth` at `now = plantedAt + 30000` does NOT give progress 1.0
and stage 3: the nutrient factor 0.8 stretches the adjusted grow time to
37500 ms. -/
theorem scenario1_not_full_progress :
    (calculateGrowth 1 plotScenario1 30000 3 30000).progress ≠ 1 ∧
    (calculateGrowth 1 plotScenario1 30000 3 30000).newStage ≠ 3 := by
  with_unfolding_all decide

/-- C2 (amended): under the scenario-1 parameters the growth computation
at `now = plantedAt + 30000` yields progress 0.8 and stage 2; progress
1.0 and stage 3 are reached at `now = plantedAt + 37500`, the adjusted
grow time `30000 / (1.0 * 0.8)`. -/
theorem scenario1_growth_values :
    (calculateGrowth 1 plotScenario1 30000 3 30000).progress = 4/5 ∧
    (calculateGrowth 1 plotScenario1 30000 3 30000).newStage = 2 ∧
    (calculateGrowth 1 plotScenario1 30000 3 37500).progress = 1 ∧
    (calculateGrowth 1 plotScenario1 30000 3 37500).newStage = 3 := by
  with_unfolding_all decide

/-- C1 (counterexample): on a plot with `waterLevel=50`, `nutrients=80`,
moss (`growTime=30000`), planted at 1000, accelerating by 5000 ms at
`now = 11000` reports progress 50 (a percentage computed from the base
grow time alone), while the tick's growth formula on the resulting
stored plot gives progress 1/5 — the reported value does not use the
water/nutrient/era-adjusted formula. -/
theorem accelerate_reported_progress_mismatch :
    (accelerateGrowth catalogMoss sAccel 0 5000 11000).2.1 = some 50 ∧
    ((accelerateGrowth catalogMoss sAccel 0 5000 11000).1.plots.map
      (fun p => (calculateGrowth 1 p 30000 3 11000).progress)) = [1/5] ∧
    (50 : ℚ) ≠ 1/5 := by
  with_unfolding_all decide

/-- C3 (counterexample): with both eras unlocked, 100 temporal pulses,
no cooldown and no travel in flight, a `travelTo` whose effect sequence
throws returns false yet leaves the balance at 90: the 10-pulse cost was
deducted before the failure. -/
theorem travel_effects_throw_not_atomic :
    (travelTo tcDefault tsBoth "egyptian" true).2.1 = false ∧
    lookupD (travelTo tcDefault tsBoth "egyptian" true).1.resources
      "temporal-pulses" 0 = 90 ∧
    lookupD tsBoth.resources "temporal-pulses" 0 = 100 := by
  with_unfolding_all decide

/-- C7 (behaviour at the failing input): a listener registered through
`once` on topic `t` is invoked by the first emission AND again by the
second emission — `on` hardcodes `once: false` (DOMRenderer.js line 873)
and never reads `options.once`, so the listener is never
self-unsubscribed, contradicting the documented one-shot semantics. -/
theorem once_listener_fires_on_every_emission :
    (busEmit busWithOnce "t").2 = [0] ∧
    (busEmit (busEmit busWithOnce "t").1 "t").2 = [0] := by
  with_unfolding_all decide

/-- Every character list is a match candidate of its own `([^.]*)` run
(the run may be empty). -/
theorem segSuffixes_self (ds : List Char) : ds ∈ segSuffixes ds := by
  cases ds with
  | nil => simp [segSuffixes]
  | cons c cs => simp [segSuffixes]

/-- Dropping a dot-free prefix reaches the remainder as a `([^.]*)`
match candidate. -/
theorem mem_segSuffixes_append (s rest : List Char)
    (hs : ∀ c ∈ s, c ≠ Char.ofNat 46) : rest ∈ segSuffixes (s ++ rest) := by
  induction s with
  | nil => simpa using segSuffixes_self rest
  | cons c cs ih =>
      have hc : c ≠ Char.ofNat 46 := hs c (by simp)
      have hmem := ih (fun x hx => hs x (by simp [hx]))
      simp only [List.cons_append, segSuffixes, if_neg hc, List.mem_cons]
      exact Or.inr hmem

/-- Conversely, every `([^.]*)` match candidate arises by dropping a
dot-free prefix. -/
theorem segSuffixes_decomp {ds rest : List Char} (h : rest ∈ segSuffixes ds) :
    ∃ pre, ds = pre ++ rest ∧ ∀ c ∈ pre, c ≠ Char.ofNat 46 := by
  induction ds with
  | nil =>
      simp only [segSuffixes, List.mem_singleton] at h
      exact ⟨[], by simp [h], by simp⟩
  | cons c cs ih =>
      have hsplit : rest = c :: cs ∨
          (¬ c = Char.ofNat 46 ∧ rest ∈ segSuffixes cs) := by
        simpa [segSuffixes] using h
      rcases hsplit with rfl | ⟨hc, h2⟩
      · exact ⟨[], by simp, by simp⟩
      · obtain ⟨pre, hpre, hdot⟩ := ih h2
        refine ⟨c :: pre, by simp [hpre], ?_⟩
        intro x hx
        rcases List.mem_cons.mp hx with rfl | hx
        · exact hc
        · exact hdot x hx

/-- A tail matched by the residual pattern `<any>c$` is exactly a
two-character list ending in `c`. -/
theorem matchToks_anyChar_lit {c : Char} {rest : List Char}
    (h : matchToks [PatTok.anyChar, PatTok.lit c] rest = true) :
    ∃ x, rest = [x, c] := by
  match rest with
  | [] => simp [matchToks] at h
  | [x] => simp [matchToks] at h
  | x :: y :: rest2 =>
      simp [matchToks, List.isEmpty_iff] at h
      exact ⟨x, by simp [h.1, h.2]⟩

/-- Compiled form of the pattern `a.*.c`: literal `a`, any character (the
unescaped regex dot), one non-dot run, any character, literal `c`. -/
theorem compile_aStarC :
    ("a.*.c").data.map compileTok =
      [PatTok.lit (Char.ofNat 97), PatTok.anyChar, PatTok.seg,
        PatTok.anyChar, PatTok.lit (Char.ofNat 99)] := by
  decide

/-- C8: wildcard subscription matching resolves `a.*.c` against `a.b.c`
but not against `a.b.c.d` (so a `set` on `a.b.c` notifies an `a.*.c`
subscriber and a `set` on `a.b.c.d` does not), and in general the `*`
matches exactly one path segment: `a.<seg>.c` matches for every dot-free
segment, while a path with two separated segments between the `a` and
the `c` never matches. -/
theorem wildcard_single_segment (s t u : List Char)
    (hs : ∀ c ∈ s, c ≠ Char.ofNat 46) :
    notifyTriggers "a.*.c" "a.b.c" = true ∧
    notifyTriggers "a.*.c" "a.b.c.d" = false ∧
    matchToks (("a.*.c").data.map compileTok)
      (Char.ofNat 97 :: Char.ofNat 46 :: (s ++ [Char.ofNat 46, Char.ofNat 99]))
      = true ∧
    matchToks (("a.*.c").data.map compileTok)
      (Char.ofNat 97 :: Char.ofNat 46 ::
        (t ++ Char.ofNat 46 :: (u ++ [Char.ofNat 46, Char.ofNat 99])))
      = false := by
  refine ⟨by decide, by decide, ?_, ?_⟩
  · rw [compile_aStarC]
    simp only [matchToks, beq_self_eq_true, Bool.true_and]
    rw [List.any_eq_true]
    refine ⟨[Char.ofNat 46, Char.ofNat 99],
      mem_segSuffixes_append s [Char.ofNat 46, Char.ofNat 99] hs, ?_⟩
    simp [matchToks]
  · rw [compile_aStarC]
    refine Bool.eq_false_iff.mpr ?_
    intro h
    simp only [matchToks, beq_self_eq_true, Bool.true_and] at h
    rw [List.any_eq_true] at h
    obtain ⟨rest, hmem, hmatch⟩ := h
    obtain ⟨pre, hds, hdot⟩ := segSuffixes_decomp hmem
    obtain ⟨x, rfl⟩ := matchToks_anyChar_lit hmatch
    have hsplit : (t ++ Char.ofNat 46 :: u) ++ [Char.ofNat 46, Char.ofNat 99]
        = pre ++ [x, Char.ofNat 99] := by
      simpa [List.append_assoc] using hds
    have hinj := List.append_inj' hsplit (by simp)
    exact hdot (Char.ofNat 46) (by rw [← hinj.1]; simp) rfl

/-- C8 (witness): the general conjuncts instantiated at the concrete
segments `b`, `b`, `x`. -/
theorem wildcard_single_segment_witness :
    (∀ c ∈ ([Char.ofNat 98] : List Char), c ≠ Char.ofNat 46) ∧
    (notifyTriggers "a.*.c" "a.b.c" = true ∧
     notifyTriggers "a.*.c" "a.b.c.d" = false ∧
     matchToks (("a.*.c").data.map compileTok)
       (Char.ofNat 97 :: Char.ofNat 46 ::
         ([Char.ofNat 98] ++ [Char.ofNat 46, Char.ofNat 99])) = true ∧
     matchToks (("a.*.c").data.map compileTok)
       (Char.ofNat 97 :: Char.ofNat 46 ::
         ([Char.ofNat 98] ++ Char.ofNat 46 ::
           ([Char.ofNat 120] ++ [Char.ofNat 46, Char.ofNat 99]))) = false) :=
  ⟨by decide,
   wildcard_single_segment [Char.ofNat 98] [Char.ofNat 98] [Char.ofNat 120]
     (by decide)⟩

mutual

/-- The deep clone of `StateManager.deepClone` is the identity on
JSON-serializable plain values. -/
theorem deepClone_eq : ∀ v : JValue, deepClone v = v
  | JValue.null => rfl
  | JValue.bool _ => rfl
  | JValue.num _ => rfl
  | JValue.str _ => rfl
  | JValue.arr items => by rw [deepClone, deepCloneList_eq]
  | JValue.obj fields => by rw [deepClone, deepCloneFields_eq]

/-- Array clones are the identity elementwise. -/
theorem deepCloneList_eq : ∀ xs : List JValue, deepCloneList xs = xs
  | [] => rfl
  | v :: rest => by rw [deepCloneList, deepClone_eq, deepCloneList_eq]

/-- Object clones are the identity fieldwise. -/
theorem deepCloneFields_eq :
    ∀ kvs : List (String × JValue), deepCloneFields kvs = kvs
  | [] => rfl
  | kv :: rest => by rw [deepCloneFields, deepClone_eq, deepCloneFields_eq]

end

/-- C9: restoring a snapshot of the current store state
(`setState(getState())`) yields an observably identical state: every
dot-path read returns the same value as before the round trip. -/
theorem setState_getState_roundtrip (state : JValue) (path : List String) :
    stateGet (setStateFn (getStateFn state)) path = stateGet state path := by
  rw [setStateFn, getStateFn, deepClone_eq, deepClone_eq]

/-- A stage change reported by `calculateGrowth` always means a strictly
larger stage: `stageChanged` is `newStage > plot.growthStage`. -/
theorem stageChanged_gt {mult : ℚ} {plot : Plot} {bgt : ℚ} {ms : Nat}
    {now : Int} (h : (calculateGrowth mult plot bgt ms now).stageChanged = true) :
    plot.growthStage < (calculateGrowth mult plot bgt ms now).newStage := by
  simp only [calculateGrowth, decide_eq_true_eq] at h ⊢
  exact h

/-- One invocation of the per-plot tick never decreases `growthStage`:
the stage is overwritten only when `stageChanged` reports a strictly
larger stage. -/
theorem updatePlantsStep_growthStage_mono (cfg : GrowthConfig)
    (flags : SysConfig) (catalog : Catalog) (now : Int) (plot : Plot) :
    plot.growthStage ≤ ((updatePlantsStep cfg flags catalog now plot).1).growthStage := by
  unfold updatePlantsStep
  cases hp : plot.plant with
  | none => simp
  | some plant =>
      simp only
      split
      · cases hc : catalog plant.type with
        | none => simp
        | some pd =>
            simp only
            by_cases hsc :
              (calculateGrowth cfg.growthMultiplier plot pd.growTime
                plant.maxStages now).stageChanged = true
            · simp only [hsc, if_true]
              exact le_of_lt (stageChanged_gt hsc)
            · simp only [Bool.not_eq_true] at hsc
              simp [hsc]
      · simp

/-- C5: the periodic tick is the pointwise map of the per-plot step over
the plot array, and across any sequence of tick invocations (with
arbitrary per-tick clocks, decay rates, flags and era multipliers) a
plot's `growthStage` never decreases. -/
theorem tick_growthStage_monotone (catalog : Catalog)
    (ticks : List TickParams) (plot : Plot) :
    plot.growthStage ≤ (tickPlotMany catalog ticks plot).growthStage ∧
    ∀ cfg flags now plots,
      (updatePlants cfg flags catalog now plots).1 =
        plots.map (fun p => (updatePlantsStep cfg flags catalog now p).1) := by
  constructor
  · induction ticks generalizing plot with
    | nil => simp [tickPlotMany]
    | cons t rest ih =>
        have hstep := updatePlantsStep_growthStage_mono
          t.cfg t.flags catalog t.now plot
        have htail := ih ((updatePlantsStep t.cfg t.flags catalog t.now plot).1)
        have hfold : tickPlotMany catalog (t :: rest) plot =
            tickPlotMany catalog rest
              ((updatePlantsStep t.cfg t.flags catalog t.now plot).1) := rfl
        rw [hfold]
        exact le_trans hstep htail
  · intro cfg flags now plots
    simp [updatePlants, List.map_map]

/-- The resource-reward loop never touches the seed inventory. -/
theorem foldl_addResourceEntry_seeds (l : List (String × Int)) (s : GameState) :
    (l.foldl addResourceEntry s).seeds = s.seeds := by
  induction l generalizing s with
  | nil => rfl
  | cons kv rest ih => simpa [addResourceEntry] using ih _

/-- Neither reward loop touches the plot array. -/
theorem applyHarvestRewards_plots (s : GameState) (rw : Rewards) :
    (applyHarvestRewards s rw).plots = s.plots := by
  unfold applyHarvestRewards
  have h1 : ∀ (l : List (String × Int)) (st : GameState),
      (l.foldl addSeedEntry st).plots = st.plots := by
    intro l
    induction l with
    | nil => intro st; rfl
    | cons kv rest ih => intro st; simpa [addSeedEntry] using ih _
  have h2 : ∀ (l : List (String × Int)) (st : GameState),
      (l.foldl addResourceEntry st).plots = st.plots := by
    intro l
    induction l with
    | nil => intro st; rfl
    | cons kv rest ih => intro st; simpa [addResourceEntry] using ih _
  rw [h2, h1]

/-- The seeds component of a computed harvest reward is a NUMBER (base
yield plus random bonus), and `Object.entries` of a number — after the
`|| \x7b\x7d` falsy guard — is always the empty entry list. -/
theorem jsEntries_of_num (n : Int) :
    jsEntries (jsOrEmptyTable (NumOrTable.num n)) = [] := by
  cases n with
  | ofNat m => cases m with
    | zero => rfl
    | succ k => rfl
  | negSucc m => rfl

/-- C10: a successful harvest never increases any seed count — the
seed-application loop iterates over the entries of a number, which are
empty, so the seed inventory is returned unchanged (only resource
counters change). -/
theorem harvest_never_adds_seeds (s : GameState) (plotId : Nat)
    (sb : Int) (rb : ℚ) (plant : Plant)
    (h : (harvestPlant s plotId sb rb).2.1 = true) :
    (harvestPlant s plotId sb rb).1.seeds = s.seeds ∧
    jsEntries (jsOrEmptyTable (calculateHarvestRewards plant sb rb).seeds) = [] := by
  constructor
  · unfold harvestPlant at h ⊢
    cases hg : getPlot s.plots plotId with
    | none => simp [hg] at h
    | some plot =>
        simp only [hg] at h ⊢
        cases hp : plot.plant with
        | none => simp [hp] at h
        | some pl =>
            simp only [hp] at h ⊢
            by_cases hst : plot.state ≠ PlotState.ready
            · simp only [if_pos hst] at h; simp at h
            · rw [if_neg hst] at h ⊢
              show (applyHarvestRewards s
                (calculateHarvestRewards pl sb rb)).seeds = s.seeds
              unfold applyHarvestRewards calculateHarvestRewards
              simp only [jsEntries_of_num, List.foldl_nil]
              exact foldl_addResourceEntry_seeds _ _
  · exact jsEntries_of_num _

/-- Membership after `updatePlot`: every plot of the result is either an
original plot or the image of an original plot under the update. -/
theorem mem_updatePlot {p : Plot} {plots : List Plot} {plotId : Nat}
    {f : Plot → Plot} (h : p ∈ updatePlot plots plotId f) :
    p ∈ plots ∨ ∃ q, q ∈ plots ∧ p = f q := by
  induction plots with
  | nil => simp [updatePlot] at h
  | cons q rest ih =>
      simp only [updatePlot] at h
      by_cases hq : q.id = plotId
      · rw [if_pos hq] at h
        rcases List.mem_cons.mp h with rfl | h2
        · exact Or.inr ⟨q, by simp, rfl⟩
        · exact Or.inl (by simp [h2])
      · rw [if_neg hq] at h
        rcases List.mem_cons.mp h with rfl | h2
        · exact Or.inl (by simp)
        · rcases ih h2 with h3 | ⟨r, hr, hpr⟩
          · exact Or.inl (by simp [h3])
          · exact Or.inr ⟨r, by simp [hr], hpr⟩

/-- The per-plot tick never adds or removes a plant. -/
theorem updatePlantsStep_plant (cfg : GrowthConfig) (flags : SysConfig)
    (catalog : Catalog) (now : Int) (plot : Plot) :
    ((updatePlantsStep cfg flags catalog now plot).1).plant = plot.plant := by
  unfold updatePlantsStep
  cases hp : plot.plant with
  | none => exact hp
  | some plant =>
      dsimp only
      split
      · cases hc : catalog plant.type with
        | none => exact hp
        | some pd => rfl
      · rfl

/-- The per-plot tick either leaves the state unchanged or moves it from
`planted`/`growing` to `ready`. -/
theorem updatePlantsStep_state (cfg : GrowthConfig) (flags : SysConfig)
    (catalog : Catalog) (now : Int) (plot : Plot) :
    ((updatePlantsStep cfg flags catalog now plot).1).state = plot.state ∨
    (((updatePlantsStep cfg flags catalog now plot).1).state = PlotState.ready ∧
      (plot.state = PlotState.planted ∨ plot.state = PlotState.growing)) := by
  unfold updatePlantsStep
  cases hp : plot.plant with
  | none => exact Or.inl rfl
  | some plant =>
      dsimp only
      split
      · rename_i hstate
        cases hc : catalog plant.type with
        | none => exact Or.inl rfl
        | some pd =>
            by_cases hr :
              ((calculateGrowth cfg.growthMultiplier plot pd.growTime
                  plant.maxStages now).isReady = true ∧
                plot.state ≠ PlotState.ready)
            · exact Or.inr ⟨by simp [hr], hstate⟩
            · exact Or.inl (by simp [hr])
      · exact Or.inl rfl

/-- The per-plot tick preserves the occupancy invariant. -/
theorem updatePlantsStep_occupancy (cfg : GrowthConfig) (flags : SysConfig)
    (catalog : Catalog) (now : Int) {plot : Plot} (h : occupancyInv plot) :
    occupancyInv (updatePlantsStep cfg flags catalog now plot).1 := by
  have hplant := updatePlantsStep_plant cfg flags catalog now plot
  unfold occupancyInv at h ⊢
  rw [hplant]
  rcases updatePlantsStep_state cfg flags catalog now plot with h1 | ⟨h1, h2⟩
  · rw [h1]; exact h
  · rw [h1]
    constructor
    · intro _
      exact Or.inr (Or.inr rfl)
    · intro _
      refine h.mpr ?_
      rcases h2 with h2 | h2
      · exact Or.inl h2
      · exact Or.inr (Or.inl h2)

/-- C4: every lifecycle operation — planting, watering, harvesting,
acceleration, and the periodic tick — preserves the plot occupancy
invariant `plant != null iff state ∈ \x7bplanted, growing, ready\x7d` for
every plot in the array. -/
theorem lifecycle_occupancy_invariant (catalog : Catalog) (s : GameState)
    (plotId : Nat) (seedType : String) (now dur sb : Int) (rb : ℚ)
    (cfg : GrowthConfig) (flags : SysConfig)
    (h : ∀ p ∈ s.plots, occupancyInv p) :
    (∀ p ∈ (plantSeed catalog s plotId seedType now).1.plots, occupancyInv p) ∧
    (∀ p ∈ (waterPlant s plotId now).1.plots, occupancyInv p) ∧
    (∀ p ∈ (harvestPlant s plotId sb rb).1.plots, occupancyInv p) ∧
    (∀ p ∈ (accelerateGrowth catalog s plotId dur now).1.plots, occupancyInv p) ∧
    (∀ p ∈ (updatePlants cfg flags catalog now s.plots).1, occupancyInv p) := by
  refine ⟨?_, ?_, ?_, ?_, ?_⟩
  · unfold plantSeed
    cases hg : getPlot s.plots plotId with
    | none => simpa using h
    | some plot =>
        simp only
        by_cases hst : plot.state ≠ PlotState.empty
        · simp only [if_pos hst]; simpa using h
        · rw [if_neg hst]
          by_cases hsc : lookupD s.seeds seedType 0 ≤ 0
          · simp only [if_pos hsc]; simpa using h
          · rw [if_neg hsc]
            cases hc : catalog seedType with
            | none => simpa using h
            | some pd =>
                simp only
                intro p hp
                rcases mem_updatePlot hp with hmem | ⟨q, hq, rfl⟩
                · exact h p hmem
                · simp [occupancyInv]
  · unfold waterPlant
    cases hg : getPlot s.plots plotId with
    | none => simpa using h
    | some plot =>
        simp only
        by_cases hpe : plot.plant = none ∨ plot.state = PlotState.empty
        · simp only [if_pos hpe]; simpa using h
        · rw [if_neg hpe]
          intro p hp
          rcases mem_updatePlot hp with hmem | ⟨q, hq, rfl⟩
          · exact h p hmem
          · have := h q hq
            unfold occupancyInv at this ⊢
            simpa using this
  · unfold harvestPlant
    cases hg : getPlot s.plots plotId with
    | none => simpa using h
    | some plot =>
        simp only
        cases hp : plot.plant with
        | none => simpa using h
        | some pl =>
            simp only
            by_cases hst : plot.state ≠ PlotState.ready
            · simp only [if_pos hst]; simpa using h
            · rw [if_neg hst]
              intro p hp2
              simp only at hp2
              rw [applyHarvestRewards_plots] at hp2
              rcases mem_updatePlot hp2 with hmem | ⟨q, hq, rfl⟩
              · exact h p hmem
              · simp [occupancyInv]
  · unfold accelerateGrowth
    cases hg : getPlot s.plots plotId with
    | none => simpa using h
    | some plot =>
        simp only
        cases hp : plot.plant with
        | none => simpa using h
        | some pl =>
            simp only
            cases hc : catalog pl.type with
            | none => simpa using h
            | some pd =>
                simp only
                intro p hp2
                rcases mem_updatePlot hp2 with hmem | ⟨q, hq, rfl⟩
                · exact h p hmem
                · have := h q hq
                  unfold occupancyInv at this ⊢
                  simpa using this
  · intro p hp
    have hmap : (updatePlants cfg flags catalog now s.plots).1 =
        s.plots.map (fun q => (updatePlantsStep cfg flags catalog now q).1) := by
      simp [updatePlants, List.map_map]
    rw [hmap] at hp
    obtain ⟨q, hq, rfl⟩ := List.mem_map.mp hp
    exact updatePlantsStep_occupancy cfg flags catalog now (h q hq)

/-- Reading back the updated plot: when the update preserves ids,
`getPlot` after `updatePlot` returns the image of the old plot. -/
theorem getPlot_updatePlot (plots : List Plot) (plotId : Nat) (f : Plot → Plot)
    (hid : ∀ q, (f q).id = q.id) :
    getPlot (updatePlot plots plotId f) plotId = (getPlot plots plotId).map f := by
  induction plots with
  | nil => rfl
  | cons p rest ih =>
      simp only [updatePlot, getPlot]
      by_cases hp : p.id = plotId
      · rw [if_pos hp]
        rw [List.find?_cons_of_pos _ (by simp [hid p, hp]),
          List.find?_cons_of_pos _ (by simp [hp])]
        rfl
      · rw [if_neg hp]
        rw [List.find?_cons_of_neg _ (by simp [hp]),
          List.find?_cons_of_neg _ (by simp [hp])]
        exact ih

/-- C1 (amended): `accelerateGrowth(plotId, D)` shifts the stored
`plantedAt` back by exactly `D`, so every later evaluation of the tick's
growth formula on the accelerated plot equals the evaluation on the
original plot `D` milliseconds later — the stored growth state is
equivalent to a natural elapse of `D`.  The progress value it returns
and emits, however, is a percentage computed from the catalog
`growTime` alone (`min(100, elapsed / growTime * 100)`), not the
water/nutrient/era-adjusted tick formula. -/
theorem accelerateGrowth_shifts_plantedAt (catalog : Catalog) (s : GameState)
    (plotId : Nat) (D now : Int) (plot : Plot) (plant : Plant)
    (pd : PlantData) (t0 : Int)
    (hplot : getPlot s.plots plotId = some plot)
    (hplant : plot.plant = some plant)
    (hpd : catalog plant.type = some pd)
    (ht : plot.plantedAt = some t0) (ht0 : t0 ≠ 0) :
    getPlot (accelerateGrowth catalog s plotId D now).1.plots plotId =
      some { plot with plantedAt := some (t0 - D) } ∧
    (∀ (mult bgt : ℚ) (ms : Nat) (t : Int),
      calculateGrowth mult { plot with plantedAt := some (t0 - D) } bgt ms t =
        calculateGrowth mult plot bgt ms (t + D)) ∧
    (accelerateGrowth catalog s plotId D now).2.1 =
      some (min 100 (((now - (t0 - D) : Int) : ℚ) / pd.growTime * 100)) := by
  have hjs : jsOr plot.plantedAt now = t0 := by
    rw [ht]; simp [jsOr, ht0]
  refine ⟨?_, ?_, ?_⟩
  · unfold accelerateGrowth
    rw [hplot]
    dsimp only
    rw [hplant]
    dsimp only
    rw [hpd]
    dsimp only
    rw [hjs]
    rw [getPlot_updatePlot s.plots plotId
      (fun p => { p with plantedAt := some (t0 - D) }) (fun q => rfl), hplot]
    simp [hplant]
  · intro mult bgt ms t
    unfold calculateGrowth
    have harith : t - jsNum (some (t0 - D)) = (t + D) - jsNum plot.plantedAt := by
      rw [ht]; simp [jsNum]; ring
    dsimp only
    rw [harith]
  · unfold accelerateGrowth
    rw [hplot]
    dsimp only
    rw [hplant]
    dsimp only
    rw [hpd]
    dsimp only
    rw [hjs]

/-- Outcome shape of `travelTo`: either it succeeds, or `currentEra` is
untouched and the resource balance is untouched except on the
thrown-effects path. -/
theorem travelTo_failure_shape (tc : TravelConfig) (ts : TravelState)
    (eraId : String) (eff : Bool) :
    (travelTo tc ts eraId eff).2.1 = true ∨
    ((travelTo tc ts eraId eff).1.currentEra = ts.currentEra ∧
      ((travelTo tc ts eraId eff).1.resources = ts.resources ∨ eff = true)) := by
  have main : ∀ res : TravelState × Bool × List GameEvent,
      res = travelTo tc ts eraId eff →
      res.2.1 = true ∨
        (res.1.currentEra = ts.currentEra ∧
          (res.1.resources = ts.resources ∨ eff = true)) := by
    intro res hres
    unfold travelTo at hres
    dsimp only at hres
    repeat' split at hres
    all_goals subst hres
    all_goals first
      | exact Or.inl rfl
      | exact Or.inr ⟨rfl, Or.inl rfl⟩
      | exact Or.inr ⟨rfl, Or.inr (by assumption)⟩
  exact main _ rfl

/-- C3 (amended): every precondition failure of `travelTo` — already
traveling, same era, unknown era, era locked, cooldown active, or
insufficient temporal pulses — is atomic: the temporal-pulses balance
and `time.currentEra` are unchanged.  A failure caused by an exception
in the effect sequence still leaves `currentEra` unchanged, but the
pulse cost has already been deducted at that point. -/
theorem travelTo_precondition_failure_atomic (tc : TravelConfig)
    (ts : TravelState) (eraId : String) (eff : Bool)
    (hfail : (travelTo tc ts eraId false).2.1 = false) :
    (travelTo tc ts eraId false).1.resources = ts.resources ∧
    (travelTo tc ts eraId false).1.currentEra = ts.currentEra ∧
    ((travelTo tc ts eraId eff).2.1 = false →
      (travelTo tc ts eraId eff).1.currentEra = ts.currentEra) := by
  have h0 := travelTo_failure_shape tc ts eraId false
  rcases h0 with h0 | ⟨hcur, hres⟩
  · rw [h0] at hfail; exact absurd hfail (by simp)
  · refine ⟨?_, hcur, ?_⟩
    · rcases hres with hres | hres
      · exact hres
      · exact absurd hres (by simp)
    · intro hfail2
      rcases travelTo_failure_shape tc ts eraId eff with h3 | ⟨h3, _⟩
      · rw [h3] at hfail2; exact absurd hfail2 (by simp)
      · exact h3

/-- Travel never rewrites the era table, so it can never clear an
`unlocked` flag. -/
theorem travelTo_eras (tc : TravelConfig) (ts : TravelState) (eraId : String)
    (eff : Bool) : (travelTo tc ts eraId eff).1.eras = ts.eras := by
  have main : ∀ res : TravelState × Bool × List GameEvent,
      res = travelTo tc ts eraId eff → res.1.eras = ts.eras := by
    intro res hres
    unfold travelTo at hres
    dsimp only at hres
    repeat' split at hres
    all_goals subst hres
    all_goals rfl
  exact main _ rfl

/-- Updating one era in place leaves every era with a different id
untouched, provided the update preserves ids. -/
theorem getEra_setEra_other {eras : List Era} {a b : String} {f : Era → Era}
    (hid : ∀ e, (f e).id = e.id) (hne : b ≠ a) :
    getEra (setEra eras a f) b = getEra eras b := by
  induction eras with
  | nil => rfl
  | cons e rest ih =>
      simp only [setEra, getEra]
      by_cases he : e.id = a
      · rw [if_pos he]
        rw [List.find?_cons_of_neg _ (by simp [hid e, he]; exact Ne.symm hne),
          List.find?_cons_of_neg _ (by simp [he]; exact Ne.symm hne)]
      · rw [if_neg he]
        by_cases hb : e.id = b
        · rw [List.find?_cons_of_pos _ (by simp [hb]),
            List.find?_cons_of_pos _ (by simp [hb])]
        · rw [List.find?_cons_of_neg _ (by simp [hb]),
            List.find?_cons_of_neg _ (by simp [hb])]
          exact ih

/-- Unlocking an already-unlocked era is a strict no-op: no state change
and no events. -/
theorem unlockEra_of_unlocked {ts : TravelState} {eraId : String} {era : Era}
    (hfind : getEra ts.eras eraId = some era) (hunl : era.unlocked = true) :
    unlockEra ts eraId = (ts, []) := by
  unfold unlockEra
  rw [hfind]
  dsimp only
  rw [if_pos hunl]

/-- Whatever era `unlockEra` is pointed at, an already-unlocked era keeps
its record, its id count in `player.unlockedEras` is unchanged, and no
unlock event for it is emitted. -/
theorem unlockEra_preserves {ts : TravelState} {otherId eraId : String}
    {era : Era} (hfind : getEra ts.eras eraId = some era)
    (hunl : era.unlocked = true) :
    getEra (unlockEra ts otherId).1.eras eraId = some era ∧
    (unlockEra ts otherId).1.unlockedEras.count eraId =
      ts.unlockedEras.count eraId ∧
    ∀ ev ∈ (unlockEra ts otherId).2, ev ≠ GameEvent.eraUnlocked eraId := by
  by_cases hsame : otherId = eraId
  · subst hsame
    rw [unlockEra_of_unlocked hfind hunl]
    exact ⟨hfind, rfl, by simp⟩
  · unfold unlockEra
    cases hg : getEra ts.eras otherId with
    | none => exact ⟨hfind, rfl, by simp⟩
    | some e2 =>
        dsimp only
        by_cases hu : e2.unlocked = true
        · rw [if_pos hu]
          exact ⟨hfind, rfl, by simp⟩
        · rw [if_neg hu]
          refine ⟨?_, ?_, ?_⟩
          · show getEra (setEra ts.eras otherId
              (fun e => { e with unlocked := true })) eraId = some era
            rw [@getEra_setEra_other ts.eras otherId eraId
              (fun e => { e with unlocked := true }) (fun e => rfl)
              (fun h => hsame h.symm)]
            exact hfind
          · dsimp only
            by_cases hmem : otherId ∈ ts.unlockedEras
            · rw [if_pos hmem]
            · rw [if_neg hmem]
              rw [List.count_append]
              simp [List.count_singleton, hsame]
          · intro ev hev
            rcases List.mem_cons.mp hev with rfl | hev
            · simp [hsame]
            · rcases List.mem_singleton.mp hev with rfl
              simp

/-- The per-era step of the unlock sweep either does nothing or
delegates to `unlockEra` on its own id. -/
theorem checkEraStep_cases (hT : String) (ts : TravelState) (id : String) :
    checkEraStep hT ts id = (ts, []) ∨
    checkEraStep hT ts id = unlockEra ts id := by
  have main : ∀ r : TravelState × List GameEvent,
      r = checkEraStep hT ts id → r = (ts, []) ∨ r = unlockEra ts id := by
    intro r hr
    unfold checkEraStep at hr
    repeat' split at hr
    all_goals first
      | exact Or.inl hr
      | exact Or.inr hr
  exact main _ rfl

/-- The unlock sweep preserves every already-unlocked era: the era
record survives, its count in `player.unlockedEras` is unchanged, and no
unlock event for it is emitted. -/
theorem checkEraUnlocksAux_preserves (harvestedType : String)
    (ids : List String) (ts : TravelState) (eraId : String) (era : Era)
    (hunl : era.unlocked = true)
    (hfind : getEra ts.eras eraId = some era) :
    getEra (checkEraUnlocksAux harvestedType ids ts).1.eras eraId = some era ∧
    (checkEraUnlocksAux harvestedType ids ts).1.unlockedEras.count eraId =
      ts.unlockedEras.count eraId ∧
    ∀ ev ∈ (checkEraUnlocksAux harvestedType ids ts).2,
      ev ≠ GameEvent.eraUnlocked eraId := by
  induction ids generalizing ts with
  | nil => exact ⟨hfind, rfl, by simp [checkEraUnlocksAux]⟩
  | cons id rest ih =>
      have hstepInv :
          getEra (checkEraStep harvestedType ts id).1.eras eraId = some era ∧
          (checkEraStep harvestedType ts id).1.unlockedEras.count eraId =
            ts.unlockedEras.count eraId ∧
          ∀ ev ∈ (checkEraStep harvestedType ts id).2,
            ev ≠ GameEvent.eraUnlocked eraId := by
        rcases checkEraStep_cases harvestedType ts id with h | h
        · rw [h]; exact ⟨hfind, rfl, by simp⟩
        · rw [h]; exact unlockEra_preserves hfind hunl
      obtain ⟨ha, hb, hc⟩ := hstepInv
      obtain ⟨ia, ib, ic⟩ := ih (checkEraStep harvestedType ts id).1 ha
      unfold checkEraUnlocksAux
      dsimp only
      refine ⟨ia, ib.trans hb, ?_⟩
      intro ev hev
      rcases List.mem_append.mp hev with h | h
      · exact hc ev h
      · exact ic ev h

/-- C6: once an era is unlocked it stays unlocked and further unlock
processing is a no-op — `unlockEra` on it returns the state unchanged
with no events; the unlock sweep `checkEraUnlocks` keeps its record,
never duplicates its id in `player.unlockedEras`, and never re-emits its
unlock event; `unlockEra` on any other era keeps it unlocked; and
`travelTo` never rewrites the era table at all. -/
theorem era_unlock_monotone_idempotent (ts : TravelState) (eraId : String)
    (era : Era) (harvestedType otherId target : String) (tc : TravelConfig)
    (eff : Bool) (hfind : getEra ts.eras eraId = some era)
    (hunl : era.unlocked = true) :
    unlockEra ts eraId = (ts, []) ∧
    getEra (checkEraUnlocks ts harvestedType).1.eras eraId = some era ∧
    (checkEraUnlocks ts harvestedType).1.unlockedEras.count eraId =
      ts.unlockedEras.count eraId ∧
    (∀ ev ∈ (checkEraUnlocks ts harvestedType).2,
      ev ≠ GameEvent.eraUnlocked eraId) ∧
    getEra (unlockEra ts otherId).1.eras eraId = some era ∧
    (travelTo tc ts target eff).1.eras = ts.eras := by
  obtain ⟨ha, hb, hc⟩ := checkEraUnlocksAux_preserves harvestedType
    (ts.eras.map Era.id) ts eraId era hunl hfind
  exact ⟨unlockEra_of_unlocked hfind hunl, ha, hb, hc,
    (unlockEra_preserves hfind hunl).1, travelTo_eras tc ts target eff⟩

/-- C1 (witness): the amended acceleration theorem evaluated on the
concrete moss plot, with the growth equivalence instantiated at the
tick parameters `mult=1`, `growTime=30000`, `maxStages=3`, `t=11000`. -/
theorem accelerateGrowth_shifts_plantedAt_witness :
    getPlot (accelerateGrowth catalogMoss sAccel 0 5000 11000).1.plots 0 =
      some { plotAccel with plantedAt := some (1000 - 5000) } ∧
    calculateGrowth 1 { plotAccel with plantedAt := some (1000 - 5000) }
        30000 3 11000 =
      calculateGrowth 1 plotAccel 30000 3 (11000 + 5000) ∧
    (accelerateGrowth catalogMoss sAccel 0 5000 11000).2.1 =
      some (min 100 (((11000 - (1000 - 5000) : Int) : ℚ) / pdMoss.growTime * 100)) := by
  have h := accelerateGrowth_shifts_plantedAt catalogMoss sAccel 0 5000 11000
    plotAccel plantMoss pdMoss 1000 rfl rfl rfl rfl (by decide)
  exact ⟨h.1, h.2.1 1 30000 3 11000, h.2.2⟩

/-- C3 (witness): the amended atomicity theorem evaluated on a concrete
failing call — traveling to the era the player is already in. -/
theorem travelTo_precondition_failure_atomic_witness :
    (travelTo tcDefault tsBoth "prehistoric" false).2.1 = false ∧
    ((travelTo tcDefault tsBoth "prehistoric" false).1.resources =
        tsBoth.resources ∧
      (travelTo tcDefault tsBoth "prehistoric" false).1.currentEra =
        tsBoth.currentEra ∧
      ((travelTo tcDefault tsBoth "prehistoric" true).2.1 = false →
        (travelTo tcDefault tsBoth "prehistoric" true).1.currentEra =
          tsBoth.currentEra)) :=
  ⟨by with_unfolding_all decide,
   travelTo_precondition_failure_atomic tcDefault tsBoth "prehistoric" true
     (by with_unfolding_all decide)⟩

/-- C4 (witness): the occupancy invariant theorem evaluated on the
concrete two-plot state (one ready plot, one empty plot). -/
theorem lifecycle_occupancy_invariant_witness :
    (∀ p ∈ sReady.plots, occupancyInv p) ∧
    ((∀ p ∈ (plantSeed catalogMoss sReady 1 "prehistoric-moss" 0).1.plots,
        occupancyInv p) ∧
      (∀ p ∈ (waterPlant sReady 1 0).1.plots, occupancyInv p) ∧
      (∀ p ∈ (harvestPlant sReady 1 1 1).1.plots, occupancyInv p) ∧
      (∀ p ∈ (accelerateGrowth catalogMoss sReady 1 5 0).1.plots,
        occupancyInv p) ∧
      (∀ p ∈ (updatePlants cfgDefault flagsDefault catalogMoss 0
          sReady.plots).1, occupancyInv p)) :=
  ⟨by with_unfolding_all decide,
   lifecycle_occupancy_invariant catalogMoss sReady 1 "prehistoric-moss"
     0 5 1 1 cfgDefault flagsDefault (by with_unfolding_all decide)⟩

/-- C6 (witness): the idempotent-unlock theorem evaluated on the
concrete state in which the egyptian era is already unlocked. -/
theorem era_unlock_monotone_idempotent_witness :
    unlockEra tsBoth "egyptian" = (tsBoth, []) ∧
    getEra (checkEraUnlocks tsBoth "prehistoric-moss").1.eras "egyptian" =
      some eraEgyptUnlocked ∧
    (checkEraUnlocks tsBoth "prehistoric-moss").1.unlockedEras.count
        "egyptian" = tsBoth.unlockedEras.count "egyptian" ∧
    (∀ ev ∈ (checkEraUnlocks tsBoth "prehistoric-moss").2,
      ev ≠ GameEvent.eraUnlocked "egyptian") ∧
    getEra (unlockEra tsBoth "prehistoric").1.eras "egyptian" =
      some eraEgyptUnlocked ∧
    (travelTo tcDefault tsBoth "egyptian" false).1.eras = tsBoth.eras :=
  era_unlock_monotone_idempotent tsBoth "egyptian" eraEgyptUnlocked
    "prehistoric-moss" "prehistoric" "egyptian" tcDefault false
    (by with_unfolding_all decide) rfl

/-- C10 (witness): the harvest frame-effect theorem evaluated on the
concrete ready plot with seed bonus 1 and resource bonus 1. -/
theorem harvest_never_adds_seeds_witness :
    (harvestPlant sReady 0 1 1).2.1 = true ∧
    ((harvestPlant sReady 0 1 1).1.seeds = sReady.seeds ∧
      jsEntries (jsOrEmptyTable
        (calculateHarvestRewards plantMoss 1 1).seeds) = []) :=
  ⟨by with_unfolding_all decide,
   harvest_never_adds_seeds sReady 0 1 1 plantMoss
     (by with_unfolding_all decide)⟩

end ChronoFarmer
